import Mathlib

/-!
Verification of the timeline-correlation and artifact-matching engine of
`src/Android/build_android_report_by_app.py` (MobileAppSwitchForensics).

The Python code is shallowly embedded: pandas dataframes become lists of
records, Python strings become `String` (list-of-`Char` backed), SQLite
`NULL` values surfacing as Python `None` become `Option String`, and the
standard-library pieces the script calls (`str.strip`, `str.lower`,
`str.replace` on one-character patterns, `sorted`, `datetime.fromisoformat`,
`astimezone`, `strftime`) are modelled by explicit executable functions.
-/

namespace AppSwitch

/-! ### Models of the Python string primitives used by the script -/

/-- Model of Python `str.strip()`: drop whitespace from both ends.
(The script only ever strips ordinary ASCII whitespace; the model uses
`Char.isWhitespace`, i.e. space, tab, CR, LF.) -/
def pyStrip (s : String) : String :=
  String.mk (((s.data.dropWhile Char.isWhitespace).reverse.dropWhile Char.isWhitespace).reverse)

/-- Model of Python `str.lower()` on the ASCII data the script handles. -/
def pyLower (s : String) : String :=
  String.mk (s.data.map Char.toLower)

/-- Model of Python `str.replace(a, b)` for one-character `a` and `b`
(the script only replaces "T" by " " and " " by "T"). -/
def replaceChar (a b : Char) (s : String) : String :=
  String.mk (s.data.map (fun c => if c = a then b else c))

/-- Model of Python slicing `s[:n]`. -/
def pyTake (n : Nat) (s : String) : String :=
  String.mk (s.data.take n)

/-- Model of Python `str.endswith(suffix)`. -/
def pyEndsWith (s suffix : String) : Bool :=
  suffix.data.isSuffixOf s.data

/-- Model of Python `str(x)` applied to an optional string: `None`
stringifies to the literal `"None"`. -/
def strOfOptPy (o : Option String) : String :=
  match o with
  | Option.none => "None"
  | some s => s

/-- Model of Python string `<`: lexicographic comparison of code points
(structurally recursive, unlike the iterator-based library order). -/
def pyLtChars : List Char → List Char → Bool
  | [], [] => false
  | [], _ :: _ => true
  | _ :: _, [] => false
  | x :: xs, y :: ys => if x = y then pyLtChars xs ys else decide (x < y)

def pyLt (s t : String) : Bool := pyLtChars s.data t.data

/-- Model of Python string `<=` (total order: `s <= t` iff not `t < s`). -/
def pyLE (s t : String) : Bool := !pyLtChars t.data s.data

/-- Model of Python `max` over a (possibly empty) collection of strings,
combined with the script's `max(S) if S else ""` idiom: every minute key is
a string and `""` is below every string, so folding `max` from `""` returns
the maximum of a non-empty collection and `""` for the empty one. -/
def maxString (l : List String) : String :=
  l.foldl (fun acc m => if pyLE acc m then m else acc) ""

/-! ### A stable sort, modelling Python `sorted` / pandas `sort_values` -/

/-- Insert an element in front of the first entry it `le`-precedes. -/
def insertLE (le : α → α → Bool) (a : α) : List α → List α
  | [] => [a]
  | b :: bs => if le a b then a :: b :: bs else b :: insertLE le a bs

/-- Stable insertion sort; model of Python's `sorted` (and of pandas
`sort_values`, whose tie order the script never relies on). -/
def pySort (le : α → α → Bool) : List α → List α
  | [] => []
  | a :: as => insertLE le a (pySort le as)

/-! ### Model of the `datetime` machinery used by the script

`_minute_key_from_rct_utc_to_kst` calls `datetime.fromisoformat`, attaches
UTC to naive values, converts to UTC+9 and formats with
`strftime("%Y-%m-%d %H:%M")`.  The parser below models `fromisoformat` for
the extended format the script's data can contain
(`YYYY-MM-DD[<sep>HH[:MM[:SS[.f{1..6}]]][±HH:MM[:SS]]]`); strings outside
this format make the Python call raise, which the model renders as
`Option.none`. -/

structure PyDatetime where
  year : Nat
  month : Nat
  day : Nat
  hour : Nat
  minute : Nat
  second : Nat
  offsetSeconds : Option Int
deriving DecidableEq

def isLeap (y : Nat) : Bool :=
  (y % 4 == 0 && y % 100 != 0) || (y % 400 == 0)

def daysInMonth (y m : Nat) : Nat :=
  if m = 2 then (if isLeap y then 29 else 28)
  else if m = 4 ∨ m = 6 ∨ m = 9 ∨ m = 11 then 30
  else 31

def digitVal (c : Char) : Nat := c.toNat - 48

def readDigits2 : List Char → Option (Nat × List Char)
  | a :: b :: rest =>
    if a.isDigit && b.isDigit then some (digitVal a * 10 + digitVal b, rest) else Option.none
  | _ => Option.none

def readDigits4 (cs : List Char) : Option (Nat × List Char) :=
  match readDigits2 cs with
  | some (hi, rest) =>
    match readDigits2 rest with
    | some (lo, rest2) => some (hi * 100 + lo, rest2)
    | Option.none => Option.none
  | Option.none => Option.none

def expectChar (c : Char) : List Char → Option (List Char)
  | d :: rest => if d = c then some rest else Option.none
  | [] => Option.none

/-- Seconds together with an optional fraction of 1 to 6 digits (the
fraction does not influence the minute key and is discarded). -/
def parseSecFrac (cs : List Char) : Option Nat :=
  match readDigits2 cs with
  | some (ss, rest) =>
    if ss ≤ 59 then
      match rest with
      | [] => some ss
      | '.' :: ds =>
        let frac := ds.takeWhile Char.isDigit
        if 1 ≤ frac.length ∧ frac.length ≤ 6 ∧ ds.drop frac.length = [] then some ss
        else Option.none
      | _ => Option.none
    else Option.none
  | Option.none => Option.none

def parseHMS (cs : List Char) : Option (Nat × Nat × Nat) :=
  match readDigits2 cs with
  | some (hh, rest) =>
    if hh ≤ 23 then
      match rest with
      | [] => some (hh, 0, 0)
      | ':' :: r2 =>
        match readDigits2 r2 with
        | some (mm, rest2) =>
          if mm ≤ 59 then
            match rest2 with
            | [] => some (hh, mm, 0)
            | ':' :: r3 =>
              match parseSecFrac r3 with
              | some ss => some (hh, mm, ss)
              | Option.none => Option.none
            | _ => Option.none
          else Option.none
        | Option.none => Option.none
      | _ => Option.none
    else Option.none
  | Option.none => Option.none

/-- Absolute value of a UTC offset written `HH:MM[:SS]`, in seconds;
bounds as enforced by `datetime.timezone`. -/
def parseOffsetTail (cs : List Char) : Option Nat :=
  match readDigits2 cs with
  | some (oh, rest) =>
    match rest with
    | ':' :: r2 =>
      match readDigits2 r2 with
      | some (om, rest2) =>
        if oh ≤ 23 ∧ om ≤ 59 then
          match rest2 with
          | [] => some (oh * 3600 + om * 60)
          | ':' :: r3 =>
            match readDigits2 r3 with
            | some (os, rest3) =>
              if os ≤ 59 ∧ rest3 = [] then some (oh * 3600 + om * 60 + os) else Option.none
            | Option.none => Option.none
          | _ => Option.none
        else Option.none
      | Option.none => Option.none
    | _ => Option.none
  | Option.none => Option.none

/-- Split the part of an ISO string after the date separator at the first
`+` or `-`, which is how CPython locates the timezone designator. -/
def splitAtSign : List Char → List Char × Option (Bool × List Char)
  | [] => ([], Option.none)
  | c :: rest =>
    if c = '+' then ([], some (false, rest))
    else if c = '-' then ([], some (true, rest))
    else
      let p := splitAtSign rest
      (c :: p.1, p.2)

def parseTimeAndOffset (cs : List Char) : Option ((Nat × Nat × Nat) × Option Int) :=
  let p := splitAtSign cs
  match parseHMS p.1 with
  | some hms =>
    match p.2 with
    | Option.none => some (hms, Option.none)
    | some (neg, tail) =>
      match parseOffsetTail tail with
      | some secs => some (hms, some (if neg then -(secs : Int) else (secs : Int)))
      | Option.none => Option.none
  | Option.none => Option.none

def parseIsoChars (cs : List Char) : Option PyDatetime :=
  match readDigits4 cs with
  | some (y, r1) =>
    match expectChar '-' r1 with
    | some r2 =>
      match readDigits2 r2 with
      | some (m, r3) =>
        match expectChar '-' r3 with
        | some r4 =>
          match readDigits2 r4 with
          | some (d, r5) =>
            if 1 ≤ y ∧ 1 ≤ m ∧ m ≤ 12 ∧ 1 ≤ d ∧ d ≤ daysInMonth y m then
              match r5 with
              | [] => some ⟨y, m, d, 0, 0, 0, Option.none⟩
              | _sep :: tail =>
                match parseTimeAndOffset tail with
                | some hmso => some ⟨y, m, d, hmso.1.1, hmso.1.2.1, hmso.1.2.2, hmso.2⟩
                | Option.none => Option.none
            else Option.none
          | Option.none => Option.none
        | Option.none => Option.none
      | Option.none => Option.none
    | Option.none => Option.none
  | Option.none => Option.none

/-- Model of `datetime.fromisoformat`. -/
def pyFromIso (s : String) : Option PyDatetime :=
  parseIsoChars s.data

/-- Model of the nested `try` in `_minute_key_from_rct_utc_to_kst`:
parse the string as is, and on failure retry with spaces turned into `T`. -/
def pyFromIso2 (s : String) : Option PyDatetime :=
  match pyFromIso s with
  | some dt => some dt
  | Option.none => pyFromIso (replaceChar ' ' 'T' s)

/-- Days since 1970-01-01 of a proleptic Gregorian date
(standard civil-calendar conversion, as used by `datetime`). -/
def daysFromCivil (y m d : Int) : Int :=
  let y2 := if m ≤ 2 then y - 1 else y
  let era := y2.ediv 400
  let yoe := y2 - era * 400
  let mp := if m > 2 then m - 3 else m + 9
  let doy := (153 * mp + 2).ediv 5 + d - 1
  let doe := yoe * 365 + yoe.ediv 4 - yoe.ediv 100 + doy
  era * 146097 + doe - 719468

/-- Inverse of `daysFromCivil`. -/
def civilFromDays (z0 : Int) : Int × Int × Int :=
  let z := z0 + 719468
  let era := z.ediv 146097
  let doe := z - era * 146097
  let yoe := (doe - doe.ediv 1460 + doe.ediv 36524 - doe.ediv 146096).ediv 365
  let y := yoe + era * 400
  let doy := doe - (365 * yoe + yoe.ediv 4 - yoe.ediv 100)
  let mp := (5 * doy + 2).ediv 153
  let d := doy - (153 * mp + 2).ediv 5 + 1
  let m := if mp < 10 then mp + 3 else mp - 9
  (if m ≤ 2 then y + 1 else y, m, d)

def padNat (w n : Nat) : String :=
  let s := toString n
  String.mk (List.replicate (w - s.length) '0') ++ s

/-- Model of `replace(tzinfo=utc)` for naive values, `astimezone(UTC+9)`
and `strftime("%Y-%m-%d %H:%M")`.  A shift outside `datetime`'s year range
raises `OverflowError` in Python (caught by the function's bare `except`),
modelled by `Option.none`. -/
def kstMinuteKey (dt : PyDatetime) : Option String :=
  let offs : Int := dt.offsetSeconds.getD 0
  let total : Int :=
    daysFromCivil dt.year dt.month dt.day * 86400 +
    dt.hour * 3600 + dt.minute * 60 + dt.second - offs + 9 * 3600
  let days := total.ediv 86400
  let rem := total.emod 86400
  let ymd := civilFromDays days
  if 1 ≤ ymd.1 ∧ ymd.1 ≤ 9999 then
    some (padNat 4 ymd.1.toNat ++ "-" ++ padNat 2 ymd.2.1.toNat ++ "-" ++
          padNat 2 ymd.2.2.toNat ++ " " ++ padNat 2 (rem.ediv 3600).toNat ++ ":" ++
          padNat 2 ((rem.emod 3600).ediv 60).toNat)
  else Option.none

/-! ### The two minute-key normalizers of the report script -/

/-- Embedding of `_minute_key_from_usg` (lines 96-101): truncate a
`YYYY-MM-DD HH:MM:SS` string to minute precision.  The Python falsy test
`if not s` is the `s = ""` test here (`read_usagestats` always yields
strings for `last_time_kst`). -/
def minuteKeyFromUsg (s : String) : String :=
  if s = "" then "" else pyTake 16 (pyStrip (replaceChar 'T' ' ' s))

/-- Embedding of `_minute_key_from_rct_utc_to_kst` (lines 104-118): parse
the RecentTasks UTC string, shift to KST and format; on a parse (or
conversion) failure fall back to the first 16 characters of the raw string
with `T` replaced by a space.  A `None` argument is falsy in Python exactly
like `""`; callers pass `Option.getD "" `-coerced values. -/
def minuteKeyFromRct (s : String) : String :=
  if s = "" then ""
  else
    match pyFromIso2 s with
    | some dt =>
      match kstMinuteKey dt with
      | some k => k
      | Option.none => pyTake 16 (replaceChar 'T' ' ' s)
    | Option.none => pyTake 16 (replaceChar 'T' ' ' s)

/-! ### Embedding of `_extract_package` (lines 27-42)

The three regexes are modelled by explicit scans.  `re.search` tries every
start position from the left; a greedy character-class run followed by a
literal can only match by taking the maximal run and backtracking to the
last position where the literal follows, which the models reproduce. -/

/-- A character of the regex class `[A-Za-z0-9._]`. -/
def isPkgChar (c : Char) : Bool := c.isAlphanum || c = '.' || c = '_'

/-- Index of the last `.` inside a run, if any. -/
def lastDotIdx (run : List Char) : Option Nat :=
  match run.reverse.findIdx? (fun c => c = '.') with
  | some k => some (run.length - 1 - k)
  | Option.none => Option.none

/-- Model of `re.search(r'\{([A-Za-z0-9._]+)/', s)`: at each `{`, the
greedy class run must be non-empty and followed by `/` (the class does not
contain `/`, so no backtracking can help). -/
def searchBrace : List Char → Option (List Char)
  | [] => Option.none
  | c :: rest =>
    if c = '{' then
      let run := rest.takeWhile isPkgChar
      if run ≠ [] ∧ (rest.drop run.length).head? = some '/' then some run
      else searchBrace rest
    else searchBrace rest

/-- Model of `re.match(r'([A-Za-z0-9._]+)[/ ]', s)`: the leading class run
must be non-empty and followed by `/` or a space. -/
def matchLead (cs : List Char) : Option (List Char) :=
  let run := cs.takeWhile isPkgChar
  if run ≠ [] ∧ ((cs.drop run.length).head? = some '/' ∨ (cs.drop run.length).head? = some ' ')
  then some run else Option.none

/-- Model of `re.search(r'([A-Za-z0-9._]+)\.', s)`: at each position, the
greedy run matches iff it contains a `.` past its first character, and the
group is the run truncated at its last `.` (greedy backtracking). -/
def searchDot : List Char → Option (List Char)
  | [] => Option.none
  | c :: rest =>
    match lastDotIdx ((c :: rest).takeWhile isPkgChar) with
    | some j =>
      if 1 ≤ j then some (((c :: rest).takeWhile isPkgChar).take j) else searchDot rest
    | Option.none => searchDot rest

/-- Embedding of `_extract_package` (lines 27-42). -/
def extractPackage (real_activity : String) : Option String :=
  if real_activity = "" then Option.none
  else
    let s := pyStrip real_activity
    match searchBrace s.data with
    | some g => some (String.mk g)
    | Option.none =>
      match matchLead s.data with
      | some g => some (String.mk g)
      | Option.none =>
        if s.data ≠ [] ∧ s.data.all isPkgChar then some s
        else
          match searchDot s.data with
          | some g => some (String.mk g)
          | Option.none => Option.none

/-! ### The dataframes consumed by `build_html` -/

/-- A row of the UsageStats dataframe (`read_usagestats`): the SQL
projection always yields strings for these columns. -/
structure UsgRecord where
  last_time_kst : String
  types : String
  classs : String
  source : String
  package : String
deriving DecidableEq

/-- A row of the RecentTasks dataframe (`read_recenttasks`):
`last_time_moved_utc` and `snapshot_file` can be SQL `NULL` (the decoder
`build_recenttasks_sqlite.py` inserts `None` for them), hence `Option`. -/
structure RctRecord where
  task_id : String
  real_activity : String
  last_time_moved_utc : Option String
  snapshot_file : Option String
deriving DecidableEq

/-- `df_usg2["pkg2"] = df_usg2["package"].fillna("android")` (line 131);
the usage decoder always supplies a string, so this is the column itself. -/
def pkg2U (u : UsgRecord) : String := u.package

/-- `df["package"] = df["real_activity"].apply(_extract_package)` (line 57)
combined with `fillna("android")` (line 130). -/
def pkg2R (r : RctRecord) : String := (extractPackage r.real_activity).getD "android"

def usgForPkg (dfU : List UsgRecord) (pkg : String) : List UsgRecord :=
  dfU.filter (fun u => pkg2U u == pkg)

def rctForPkg (dfR : List RctRecord) (pkg : String) : List RctRecord :=
  dfR.filter (fun r => pkg2R r == pkg)

/-! ### Minute buckets and the correlator (lines 209-259)

The Python minute-key sets are modelled by lists; their only uses are
membership tests and `max`, which ignore order and multiplicity. -/

/-- `usg_min_set` (lines 210, 212); `dropna` is vacuous on the string
column. -/
def usgMinSet (dfU : List UsgRecord) (pkg : String) : List String :=
  (((usgForPkg dfU pkg).map (fun u => u.last_time_kst)).map minuteKeyFromUsg).filter
    (fun m => m != "")

/-- `rct_min_set` (lines 211, 213); `dropna` is `filterMap`. -/
def rctMinSet (dfR : List RctRecord) (pkg : String) : List String :=
  (((rctForPkg dfR pkg).filterMap (fun r => r.last_time_moved_utc)).map minuteKeyFromRct).filter
    (fun m => m != "")

/-- `intersect_minutes = usg_min_set & rct_min_set` (line 214). -/
def intersectMinutes (dfR : List RctRecord) (dfU : List UsgRecord) (pkg : String) : List String :=
  (usgMinSet dfU pkg).filter (fun m => (rctMinSet dfR pkg).contains m)

/-- `most_recent_usg_min = max(usg_min_set) if usg_min_set else ""` (line 215). -/
def mostRecentUsgMin (dfU : List UsgRecord) (pkg : String) : String :=
  maxString (usgMinSet dfU pkg)

/-- `most_recent_rct_min = max(rct_min_set) if rct_min_set else ""` (line 216). -/
def mostRecentRctMin (dfR : List RctRecord) (pkg : String) : String :=
  maxString (rctMinSet dfR pkg)

/-- Row flags: `matched` is the blue row class, `mismatched` the red one,
`none` an unstyled row. -/
inductive Flag
  | matched
  | mismatched
  | none
deriving DecidableEq

/-- The row-colouring logic for UsageStats rows (lines 224-229). -/
def usgFlag (dfR : List RctRecord) (dfU : List UsgRecord) (pkg : String) (mk : String) : Flag :=
  if mk ≠ "" then
    if (intersectMinutes dfR dfU pkg).contains mk then Flag.matched
    else if mostRecentUsgMin dfU pkg ≠ "" ∧ mostRecentRctMin dfR pkg ≠ "" ∧
            mk = mostRecentUsgMin dfU pkg ∧ mostRecentUsgMin dfU pkg ≠ mostRecentRctMin dfR pkg
    then Flag.mismatched
    else Flag.none
  else Flag.none

/-- The row-colouring logic for RecentTasks rows (lines 248-253). -/
def rctFlag (dfR : List RctRecord) (dfU : List UsgRecord) (pkg : String) (mk : String) : Flag :=
  if mk ≠ "" then
    if (intersectMinutes dfR dfU pkg).contains mk then Flag.matched
    else if mostRecentUsgMin dfU pkg ≠ "" ∧ mostRecentRctMin dfR pkg ≠ "" ∧
            mk = mostRecentRctMin dfR pkg ∧ mostRecentUsgMin dfU pkg ≠ mostRecentRctMin dfR pkg
    then Flag.mismatched
    else Flag.none
  else Flag.none

/-- Lines 222-235: UsageStats rows are emitted in descending
`last_time_kst` order (`sort_values(..., ascending=False)`) with their
flags. -/
def annotatedUsg (dfR : List RctRecord) (dfU : List UsgRecord) (pkg : String) :
    List (UsgRecord × Flag) :=
  (pySort (fun a b => pyLE b.last_time_kst a.last_time_kst) (usgForPkg dfU pkg)).map
    (fun u => (u, usgFlag dfR dfU pkg (minuteKeyFromUsg u.last_time_kst)))

/-- Lines 246-259: RecentTasks rows are emitted in dataframe order with
their flags; `r.get` on a `NULL` timestamp is falsy, modelled by
`Option.getD ""`. -/
def annotatedRct (dfR : List RctRecord) (dfU : List UsgRecord) (pkg : String) :
    List (RctRecord × Flag) :=
  (rctForPkg dfR pkg).map
    (fun r => (r, rctFlag dfR dfU pkg (minuteKeyFromRct (r.last_time_moved_utc.getD ""))))

/-! ### The two artifact matchers (scoring: lines 137-168; display:
lines 262-287) -/

/-- `index_snapshots` result: association list from lowercase basename to
path, in directory-walk order (`dict` preserves insertion order, and
`keys()` / `items()` iterate in that same order). -/
abbrev SnapIndex := List (String × String)

def snapIndexHasKey (idx : SnapIndex) (k : String) : Bool :=
  idx.any (fun p => p.1 == k)

def snapIndexGet (idx : SnapIndex) (k : String) : Option String :=
  (idx.find? (fun p => p.1 == k)).map (fun p => p.2)

/-- Model of `str(value or "")`: Python `None` and `""` are both falsy. -/
def strOrEmpty (o : Option String) : String := o.getD ""

/-- `sf = str(r.get("snapshot_file","") or "").strip().lower()` (line 144). -/
def scoreSf (r : RctRecord) : String := pyLower (pyStrip (strOrEmpty r.snapshot_file))

/-- `digits = "".join(ch for ch in tid if ch.isdigit())` (lines 149, 267). -/
def digitsOf (tid : String) : String := String.mk (tid.data.filter Char.isDigit)

/-- `exts = [".jpg",".png",".webp",".jpeg"]` (lines 141, 201). -/
def exts : List String := [".jpg", ".png", ".webp", ".jpeg"]

/-- Candidate list built by `_snapshot_score_for_pkg` (lines 150-154);
`tid = str(r.get("task_id","") or "")` is the string column itself. -/
def scoreCandidates (r : RctRecord) : List String :=
  (if scoreSf r ≠ "" then [scoreSf r] else []) ++
  (if digitsOf r.task_id ≠ "" then
     exts.map (fun e => digitsOf r.task_id ++ e) ++
       exts.map (fun e => digitsOf r.task_id ++ "_reduced" ++ e)
   else [])

/-- One candidate test of the scoring loop (lines 156-165): exact key
membership, else any indexed key ending with the candidate. -/
def candHit (idx : SnapIndex) (cand : String) : Bool :=
  snapIndexHasKey idx cand || idx.any (fun p => pyEndsWith p.1 cand)

/-- Per-record body of `_snapshot_score_for_pkg`'s loop (lines 143-167),
including the early `continue` when the stored name is an exact key. -/
def snapshotCounted (idx : SnapIndex) (r : RctRecord) : Bool :=
  if scoreSf r ≠ "" && snapIndexHasKey idx (scoreSf r) then true
  else (scoreCandidates r).any (fun cand => candHit idx cand)

/-- Embedding of `_snapshot_score_for_pkg` (lines 137-168). -/
def snapshotScoreForPkg (idx : SnapIndex) (dfR : List RctRecord) (pkg : String) : Nat :=
  let sub_r := rctForPkg dfR pkg
  if sub_r.isEmpty then 0 else sub_r.countP (fun r => snapshotCounted idx r)

/-- `name = str(r.get("snapshot_file","")).strip()` (line 265): a `str()`
without `or ""`, so a SQL `NULL` becomes the literal string "None". -/
def displayName (r : RctRecord) : String := pyStrip (strOfOptPy r.snapshot_file)

/-- `tid = str(r.get("task_id","")).strip()` then digit filtering
(lines 266-267). -/
def displayDigits (r : RctRecord) : String := digitsOf (pyStrip r.task_id)

/-- Candidate list of the snapshot-collection loop (lines 269-271). -/
def displayCandidates (r : RctRecord) : List String :=
  (if displayName r ≠ "" then [displayName r] else []) ++
  (if displayDigits r ≠ "" then
     exts.map (fun e => displayDigits r ++ e) ++
       exts.map (fun e => displayDigits r ++ "_reduced" ++ e)
   else [])

/-- Resolution of one candidate (lines 274-283): exact lowercase lookup
first, then the first suffix match in index order. -/
def resolveCandidate (idx : SnapIndex) (cand : String) : Option String :=
  match snapIndexGet idx (pyLower cand) with
  | some p => some p
  | Option.none => (idx.find? (fun p => pyEndsWith p.1 (pyLower cand))).map (fun p => p.2)

/-- The whole per-record snapshot search (lines 273-284): the first
candidate that resolves wins; none resolving yields no path. -/
def findSnapshot (idx : SnapIndex) (r : RctRecord) : Option String :=
  (displayCandidates r).findSome? (resolveCandidate idx)

/-! ### Subject ranking (lines 171-172) -/

/-- `pkgs_all = sorted(set(df_rct2.pkg2) | set(df_usg2.pkg2))` (line 171). -/
def pkgsAll (dfR : List RctRecord) (dfU : List UsgRecord) : List String :=
  pySort (fun a b => pyLE a b) ((dfR.map pkg2R ++ dfU.map pkg2U).dedup)

/-- The order induced by the sort key `(-score(x), x or "")` of line 172
(for a string `x`, `x or ""` is `x`). -/
def rankLE (idx : SnapIndex) (dfR : List RctRecord) (x y : String) : Bool :=
  decide (snapshotScoreForPkg idx dfR y < snapshotScoreForPkg idx dfR x) ||
    (decide (snapshotScoreForPkg idx dfR x = snapshotScoreForPkg idx dfR y) && pyLE x y)

/-- `pkgs = sorted(pkgs_all, key=lambda x: (-score(x), x or ""))`
(line 172). -/
def rankedPkgs (idx : SnapIndex) (dfR : List RctRecord) (dfU : List UsgRecord) : List String :=
  pySort (rankLE idx dfR) (pkgsAll dfR dfU)

/-! ### Concrete fixtures (used by witnesses, counterexamples and the
scenario claims) -/

def recU05 : UsgRecord :=
  ⟨"2024-01-01 10:05:12", "ACTIVITY_RESUMED", "MainActivity", "daily", "app.demo"⟩

def recU09 : UsgRecord :=
  ⟨"2024-01-01 10:09:30", "ACTIVITY_PAUSED", "MainActivity", "daily", "app.demo"⟩

def dfU0 : List UsgRecord := [recU05, recU09]

def recR05 : RctRecord :=
  ⟨"11", "app.demo/.Main", some "2024-01-01T01:05:00+00:00", some "11.jpg"⟩

def recR12 : RctRecord :=
  ⟨"12", "app.demo/.Main", some "2024-01-01T01:12:00+00:00", Option.none⟩

def dfR0 : List RctRecord := [recR05, recR12]

def recU09a : UsgRecord :=
  ⟨"2024-01-01 10:09:10", "ACTIVITY_RESUMED", "M", "daily", "app.two"⟩

def recU09b : UsgRecord :=
  ⟨"2024-01-01 10:09:50", "ACTIVITY_PAUSED", "M", "daily", "app.two"⟩

def dfU1 : List UsgRecord := [recU09a, recU09b]

def dfR1 : List RctRecord :=
  [⟨"21", "app.two/.Main", some "2024-01-01 01:12:00", Option.none⟩]

def recRBad : RctRecord := ⟨"31", "app.bad/.Main", some "garbage", Option.none⟩

def dfR2 : List RctRecord := [recRBad]

def dfUW : List UsgRecord :=
  [⟨"2024-01-01 09:00:00", "ACTIVITY_RESUMED", "M", "daily", "aaa.app"⟩]

def idxN : SnapIndex := [("none", "snapshots/none")]

def recRN : RctRecord := ⟨"abc", "unbracketed", Option.none, Option.none⟩

def idxW : SnapIndex := [("42.jpg", "snapshots/42.jpg")]

def recRW : RctRecord := ⟨"42", "app.w/.Main", Option.none, some "42.JPG"⟩

/-! ### Spec-side definitions for the refinement claims (C5, C7, C9)

These follow the wording of the spec and of the claims, to be compared
with the source-derived definitions above. -/

/-- Candidate sequence as worded by claim C5: the stored artifact name
first when present, then the eight digit-derived names in a fixed order. -/
def specCandidatesC5 (r : RctRecord) : List String :=
  (match r.snapshot_file with
   | some n => if pyStrip n ≠ "" then [pyStrip n] else []
   | Option.none => []) ++
  (if displayDigits r ≠ "" then
     [displayDigits r ++ ".jpg", displayDigits r ++ ".png", displayDigits r ++ ".webp",
      displayDigits r ++ ".jpeg", displayDigits r ++ "_reduced.jpg",
      displayDigits r ++ "_reduced.png", displayDigits r ++ "_reduced.webp",
      displayDigits r ++ "_reduced.jpeg"]
   else [])

/-- Per-candidate resolution as worded by claim C5: an exact
case-insensitive basename lookup first, then a case-insensitive suffix
match (the first indexed basename ending with the candidate). -/
def specResolveC5 (idx : SnapIndex) (cand : String) : Option String :=
  if snapIndexHasKey idx (pyLower cand) then snapIndexGet idx (pyLower cand)
  else ((idx.filter (fun p => pyEndsWith p.1 (pyLower cand))).head?).map (fun p => p.2)

/-- The matcher exactly as claim C5 words it. -/
def specFindSnapshotC5 (idx : SnapIndex) (r : RctRecord) : Option String :=
  (specCandidatesC5 r).findSome? (specResolveC5 idx)

/-- Amended stored-name clause for C5: the code stringifies the stored
name before stripping, so an absent (`None`) name becomes the literal
candidate "None". -/
def specCandidatesC5A (r : RctRecord) : List String :=
  (if pyStrip (strOfOptPy r.snapshot_file) ≠ "" then [pyStrip (strOfOptPy r.snapshot_file)]
   else []) ++
  (if displayDigits r ≠ "" then
     [displayDigits r ++ ".jpg", displayDigits r ++ ".png", displayDigits r ++ ".webp",
      displayDigits r ++ ".jpeg", displayDigits r ++ "_reduced.jpg",
      displayDigits r ++ "_reduced.png", displayDigits r ++ "_reduced.webp",
      displayDigits r ++ "_reduced.jpeg"]
   else [])

/-- The matcher as amended claim C5 words it. -/
def specFindSnapshotC5A (idx : SnapIndex) (r : RctRecord) : Option String :=
  (specCandidatesC5A r).findSome? (specResolveC5 idx)

/-- One start position of the brace regex, for the index-scan formulation
of `re.search` used in the C7 spec functions. -/
def braceAt (cs : List Char) (i : Nat) : Option (List Char) :=
  match cs.drop i with
  | c :: rest =>
    if c = '{' then
      let run := rest.takeWhile isPkgChar
      if run ≠ [] ∧ (rest.drop run.length).head? = some '/' then some run else Option.none
    else Option.none
  | [] => Option.none

/-- Claim C7 (a): the component inside a bracket, searched at every start
position from the left. -/
def specBraceSearch (cs : List Char) : Option (List Char) :=
  (List.range cs.length).findSome? (braceAt cs)

/-- One start position of the trailing-dot regex. -/
def dotAt (cs : List Char) (i : Nat) : Option (List Char) :=
  match lastDotIdx ((cs.drop i).takeWhile isPkgChar) with
  | some j =>
    if 1 ≤ j then some (((cs.drop i).takeWhile isPkgChar).take j) else Option.none
  | Option.none => Option.none

/-- The amended C7 clause (d): at the first position whose identifier run
contains a dot past its start, the run truncated at its last dot. -/
def specDotSearch (cs : List Char) : Option (List Char) :=
  (List.range cs.length).findSome? (dotAt cs)

/-- Claim C7 clause (d) as literally worded: the substring before the
first `.`, applicable when the string contains a dot. -/
def beforeFirstDot (cs : List Char) : Option (List Char) :=
  if '.' ∈ cs then some (cs.takeWhile (fun c => c ≠ '.')) else Option.none

/-- Subject-id resolution as claim C7 words it, reading clause (d)
literally. -/
def specExtractLitC7 (s0 : String) : Option String :=
  if s0 = "" then Option.none
  else
    let s := pyStrip s0
    match specBraceSearch s.data with
    | some g => some (String.mk g)
    | Option.none =>
      match matchLead s.data with
      | some g => some (String.mk g)
      | Option.none =>
        if s.data ≠ [] ∧ s.data.all isPkgChar then some s
        else
          match beforeFirstDot s.data with
          | some g => some (String.mk g)
          | Option.none => Option.none

/-- Subject-id resolution with the amended clause (d). -/
def specExtractAmendedC7 (s0 : String) : Option String :=
  if s0 = "" then Option.none
  else
    let s := pyStrip s0
    match specBraceSearch s.data with
    | some g => some (String.mk g)
    | Option.none =>
      match matchLead s.data with
      | some g => some (String.mk g)
      | Option.none =>
        if s.data ≠ [] ∧ s.data.all isPkgChar then some s
        else
          match specDotSearch s.data with
          | some g => some (String.mk g)
          | Option.none => Option.none

/-! ### Helper lemmas about `pySort` and the string order -/

theorem insertLE_perm (le : α → α → Bool) (a : α) (l : List α) :
    List.Perm (insertLE le a l) (a :: l) := by
  induction l with
  | nil => exact List.Perm.refl _
  | cons b bs ih =>
    simp only [insertLE]
    by_cases h : le a b = true
    · rw [if_pos h]
    · rw [if_neg h]
      exact List.Perm.trans (ih.cons b) (List.Perm.swap a b bs)

theorem pySort_perm (le : α → α → Bool) (l : List α) : List.Perm (pySort le l) l := by
  induction l with
  | nil => exact List.Perm.refl _
  | cons a as ih =>
    exact List.Perm.trans (insertLE_perm le a (pySort le as)) (ih.cons a)

theorem mem_pySort (le : α → α → Bool) (l : List α) (x : α) :
    x ∈ pySort le l ↔ x ∈ l :=
  (pySort_perm le l).mem_iff

theorem pairwise_insertLE (le : α → α → Bool)
    (trans : ∀ a b c, le a b = true → le b c = true → le a c = true)
    (total : ∀ a b, (le a b || le b a) = true)
    (a : α) (l : List α) (h : l.Pairwise (fun x y => le x y = true)) :
    (insertLE le a l).Pairwise (fun x y => le x y = true) := by
  induction l with
  | nil => simp [insertLE]
  | cons b bs ih =>
    rcases List.pairwise_cons.mp h with ⟨hb, hbs⟩
    simp only [insertLE]
    by_cases hab : le a b = true
    · rw [if_pos hab]
      refine List.pairwise_cons.mpr ⟨?_, h⟩
      intro y hy
      rcases List.mem_cons.mp hy with rfl | hy2
      · exact hab
      · exact trans a b y hab (hb y hy2)
    · rw [if_neg hab]
      have hba : le b a = true := by
        have ht := total a b
        cases h1 : le a b with
        | true => exact absurd h1 hab
        | false =>
          rw [h1] at ht
          simpa using ht
      refine List.pairwise_cons.mpr ⟨?_, ih hbs⟩
      intro y hy
      rcases List.mem_cons.mp ((insertLE_perm le a bs).mem_iff.mp hy) with rfl | hy2
      · exact hba
      · exact hb y hy2

theorem pairwise_pySort (le : α → α → Bool)
    (trans : ∀ a b c, le a b = true → le b c = true → le a c = true)
    (total : ∀ a b, (le a b || le b a) = true)
    (l : List α) : (pySort le l).Pairwise (fun x y => le x y = true) := by
  induction l with
  | nil => simp [pySort]
  | cons a as ih => exact pairwise_insertLE le trans total a (pySort le as) ih

theorem pyLtChars_irrefl (l : List Char) : pyLtChars l l = false := by
  induction l with
  | nil => rfl
  | cons x xs ih => simp [pyLtChars, ih]

theorem pyLtChars_trans {a : List Char} : ∀ {b c : List Char},
    pyLtChars a b = true → pyLtChars b c = true → pyLtChars a c = true := by
  induction a with
  | nil =>
    intro b c hab hbc
    cases b with
    | nil => exact absurd hab (by simp [pyLtChars])
    | cons y ys =>
      cases c with
      | nil => exact absurd hbc (by simp [pyLtChars])
      | cons z zs => simp [pyLtChars]
  | cons x xs ih =>
    intro b c hab hbc
    cases b with
    | nil => exact absurd hab (by simp [pyLtChars])
    | cons y ys =>
      cases c with
      | nil => exact absurd hbc (by simp [pyLtChars])
      | cons z zs =>
        simp only [pyLtChars] at hab hbc ⊢
        by_cases hxy : x = y
        · subst hxy
          rw [if_pos rfl] at hab
          by_cases hyz : x = z
          · subst hyz
            rw [if_pos rfl] at hbc ⊢
            exact ih hab hbc
          · rw [if_neg hyz] at hbc ⊢
            exact hbc
        · rw [if_neg hxy] at hab
          by_cases hyz : y = z
          · subst hyz
            rw [if_neg hxy]
            exact hab
          · rw [if_neg hyz] at hbc
            by_cases hxz : x = z
            · subst hxz
              exact absurd (of_decide_eq_true hbc) (lt_asymm (of_decide_eq_true hab))
            · rw [if_neg hxz]
              exact decide_eq_true (lt_trans (of_decide_eq_true hab) (of_decide_eq_true hbc))

theorem pyLtChars_trichot : ∀ (a b : List Char),
    a = b ∨ pyLtChars a b = true ∨ pyLtChars b a = true
  | [], [] => Or.inl rfl
  | [], _ :: _ => Or.inr (Or.inl (by simp [pyLtChars]))
  | _ :: _, [] => Or.inr (Or.inr (by simp [pyLtChars]))
  | x :: xs, y :: ys => by
    by_cases hxy : x = y
    · subst hxy
      rcases pyLtChars_trichot xs ys with h | h | h
      · exact Or.inl (by rw [h])
      · exact Or.inr (Or.inl (by simp [pyLtChars, h]))
      · exact Or.inr (Or.inr (by simp [pyLtChars, h]))
    · rcases lt_trichotomy x y with h | h | h
      · exact Or.inr (Or.inl (by simp [pyLtChars, if_neg hxy, h]))
      · exact absurd h hxy
      · refine Or.inr (Or.inr ?_)
        have hyx : ¬ y = x := fun hh => hxy hh.symm
        simp [pyLtChars, if_neg hyx, h]

theorem pyLtChars_asymm {a b : List Char} (h : pyLtChars a b = true) :
    pyLtChars b a = false := by
  cases h2 : pyLtChars b a with
  | false => rfl
  | true =>
    have h3 := pyLtChars_trans h h2
    rw [pyLtChars_irrefl] at h3
    exact Bool.noConfusion h3

theorem pyLE_refl (s : String) : pyLE s s = true := by
  simp [pyLE, pyLtChars_irrefl]

theorem pyLE_total (a b : String) : (pyLE a b || pyLE b a) = true := by
  unfold pyLE
  cases h1 : pyLtChars b.data a.data with
  | false => simp
  | true =>
    rw [pyLtChars_asymm h1]
    simp

theorem pyLE_trans {a b c : String} (h1 : pyLE a b = true) (h2 : pyLE b c = true) :
    pyLE a c = true := by
  unfold pyLE at h1 h2 ⊢
  rw [Bool.not_eq_true'] at h1 h2 ⊢
  cases h3 : pyLtChars c.data a.data with
  | false => rfl
  | true =>
    exfalso
    rcases pyLtChars_trichot c.data b.data with he | hlt | hgt
    · rw [he] at h3
      rw [h3] at h1
      exact Bool.noConfusion h1
    · rw [hlt] at h2
      exact Bool.noConfusion h2
    · have h4 := pyLtChars_trans hgt h3
      rw [h4] at h1
      exact Bool.noConfusion h1

theorem pyLE_antisymm {a b : String} (h1 : pyLE a b = true) (h2 : pyLE b a = true) :
    a = b := by
  unfold pyLE at h1 h2
  rw [Bool.not_eq_true'] at h1 h2
  rcases pyLtChars_trichot a.data b.data with he | hlt | hgt
  · cases a with
    | mk d1 =>
      cases b with
      | mk d2 => exact congrArg String.mk he
  · rw [hlt] at h2
    exact Bool.noConfusion h2
  · rw [hgt] at h1
    exact Bool.noConfusion h1

/-! ### Helper lemmas about the correlator -/

theorem empty_not_mem_usgMinSet (dfU : List UsgRecord) (pkg : String) :
    "" ∉ usgMinSet dfU pkg := by
  intro h
  have := List.mem_filter.mp h
  simpa using this.2

theorem empty_not_mem_intersect (dfR : List RctRecord) (dfU : List UsgRecord) (pkg : String) :
    "" ∉ intersectMinutes dfR dfU pkg := by
  intro h
  exact empty_not_mem_usgMinSet dfU pkg (List.mem_of_mem_filter h)

theorem contains_iff_mem (l : List String) (a : String) : l.contains a = true ↔ a ∈ l := by
  simp

theorem usgFlag_matched_iff (dfR : List RctRecord) (dfU : List UsgRecord) (pkg mk : String) :
    usgFlag dfR dfU pkg mk = Flag.matched ↔ mk ∈ intersectMinutes dfR dfU pkg := by
  unfold usgFlag
  by_cases h0 : mk = ""
  · subst h0
    rw [if_neg (by simp)]
    constructor
    · intro h; exact Flag.noConfusion h
    · intro h; exact absurd h (empty_not_mem_intersect dfR dfU pkg)
  · rw [if_pos h0]
    by_cases h1 : (intersectMinutes dfR dfU pkg).contains mk = true
    · rw [if_pos h1]
      simp [(contains_iff_mem _ _).mp h1]
    · rw [if_neg h1]
      constructor
      · intro h
        split at h
        · exact Flag.noConfusion h
        · exact Flag.noConfusion h
      · intro h
        exact absurd ((contains_iff_mem _ _).mpr h) h1

theorem rctFlag_matched_iff (dfR : List RctRecord) (dfU : List UsgRecord) (pkg mk : String) :
    rctFlag dfR dfU pkg mk = Flag.matched ↔ mk ∈ intersectMinutes dfR dfU pkg := by
  unfold rctFlag
  by_cases h0 : mk = ""
  · subst h0
    rw [if_neg (by simp)]
    constructor
    · intro h; exact Flag.noConfusion h
    · intro h; exact absurd h (empty_not_mem_intersect dfR dfU pkg)
  · rw [if_pos h0]
    by_cases h1 : (intersectMinutes dfR dfU pkg).contains mk = true
    · rw [if_pos h1]
      simp [(contains_iff_mem _ _).mp h1]
    · rw [if_neg h1]
      constructor
      · intro h
        split at h
        · exact Flag.noConfusion h
        · exact Flag.noConfusion h
      · intro h
        exact absurd ((contains_iff_mem _ _).mpr h) h1

/-! ### Claim theorems -/

/-- Claim C1: for every subject and every annotated source-A (usage)
record, the flag is `matched` iff the record's minute key lies in the
intersection of the subject's source-A and source-B minute-key sets; the
symmetric statement holds for source-B (task) records. -/
theorem c1_matched_iff_in_intersection
    (dfR : List RctRecord) (dfU : List UsgRecord) (pkg : String) :
    (∀ p ∈ annotatedUsg dfR dfU pkg,
       p.2 = Flag.matched ↔
         minuteKeyFromUsg p.1.last_time_kst ∈ intersectMinutes dfR dfU pkg) ∧
    (∀ p ∈ annotatedRct dfR dfU pkg,
       p.2 = Flag.matched ↔
         minuteKeyFromRct (p.1.last_time_moved_utc.getD "") ∈ intersectMinutes dfR dfU pkg) := by
  constructor
  · intro p hp
    obtain ⟨u, _, rfl⟩ := List.mem_map.mp hp
    exact usgFlag_matched_iff dfR dfU pkg (minuteKeyFromUsg u.last_time_kst)
  · intro p hp
    obtain ⟨r, _, rfl⟩ := List.mem_map.mp hp
    exact rctFlag_matched_iff dfR dfU pkg (minuteKeyFromRct (r.last_time_moved_utc.getD ""))

/-- Witness for C1 at a concrete input: the 10:05 usage row of the demo
subject is flagged `matched` and its minute key is in the intersection. -/
theorem c1_matched_iff_in_intersection_witness :
    (recU05, Flag.matched).2 = Flag.matched ↔
      minuteKeyFromUsg recU05.last_time_kst ∈ intersectMinutes dfR0 dfU0 "app.demo" :=
  (c1_matched_iff_in_intersection dfR0 dfU0 "app.demo").1 (recU05, Flag.matched) (by decide)

/-- Claim C3 (scenario): for the demo subject with source-A minute keys
10:05 and 10:09 and source-B minute keys 10:05 and 10:12, the intersection
is exactly 10:05, the A-record at 10:09 and the B-record at 10:12 are
flagged `mismatched`, and both 10:05 records are flagged `matched`. -/
theorem c3_scenario :
    usgMinSet dfU0 "app.demo" = ["2024-01-01 10:05", "2024-01-01 10:09"] ∧
    rctMinSet dfR0 "app.demo" = ["2024-01-01 10:05", "2024-01-01 10:12"] ∧
    intersectMinutes dfR0 dfU0 "app.demo" = ["2024-01-01 10:05"] ∧
    annotatedUsg dfR0 dfU0 "app.demo" = [(recU09, Flag.mismatched), (recU05, Flag.matched)] ∧
    annotatedRct dfR0 dfU0 "app.demo" = [(recR05, Flag.matched), (recR12, Flag.mismatched)] := by
  refine ⟨?_, ?_, ?_, ?_, ?_⟩ <;> decide

/-- Claim C8: a subject's coverage score is bounded by its number of
source-B (task) records — usage records never contribute — and a subject
with no task records scores 0. -/
theorem c8_score_bounded (idx : SnapIndex) (dfR : List RctRecord) (pkg : String) :
    snapshotScoreForPkg idx dfR pkg ≤ (rctForPkg dfR pkg).length ∧
    (rctForPkg dfR pkg = [] → snapshotScoreForPkg idx dfR pkg = 0) := by
  constructor
  · simp only [snapshotScoreForPkg]
    split
    · exact Nat.zero_le _
    · exact List.countP_le_length _
  · intro h
    simp [snapshotScoreForPkg, h]

/-- Witness for C8 at a concrete input: a subject with only usage records
has no task records and scores 0. -/
theorem c8_score_bounded_witness :
    rctForPkg dfR0 "only.usage.app" = [] ∧
    snapshotScoreForPkg [] dfR0 "only.usage.app" = 0 :=
  ⟨by decide, (c8_score_bounded [] dfR0 "only.usage.app").2 (by decide)⟩

/-- Claim C10: annotated usage rows are emitted in non-increasing order of
their timestamp string whatever order the decoder supplied, while
annotated task rows are exactly the decoder-supplied subset in order. -/
theorem c10_row_order (dfR : List RctRecord) (dfU : List UsgRecord) (pkg : String) :
    (annotatedUsg dfR dfU pkg).Pairwise
      (fun p q => pyLE q.1.last_time_kst p.1.last_time_kst = true) ∧
    (annotatedRct dfR dfU pkg).map Prod.fst = rctForPkg dfR pkg := by
  constructor
  · unfold annotatedUsg
    have hp := pairwise_pySort
      (fun a b : UsgRecord => pyLE b.last_time_kst a.last_time_kst)
      (fun a b c hab hbc => pyLE_trans hbc hab)
      (fun a b => pyLE_total b.last_time_kst a.last_time_kst)
      (usgForPkg dfU pkg)
    exact hp.map _ (fun a b hab => hab)
  · unfold annotatedRct
    rw [List.map_map]
    exact List.map_id' _

/-! ### Flag-analysis helpers (C2) -/

theorem usgFlag_mismatched (dfR : List RctRecord) (dfU : List UsgRecord) (pkg mk : String)
    (h : usgFlag dfR dfU pkg mk = Flag.mismatched) :
    mk = mostRecentUsgMin dfU pkg ∧ mostRecentUsgMin dfU pkg ≠ "" ∧
    mostRecentRctMin dfR pkg ≠ "" ∧ mostRecentUsgMin dfU pkg ≠ mostRecentRctMin dfR pkg := by
  unfold usgFlag at h
  by_cases h0 : mk = ""
  · rw [if_neg (by simp [h0])] at h
    exact Flag.noConfusion h
  · rw [if_pos h0] at h
    by_cases h1 : (intersectMinutes dfR dfU pkg).contains mk = true
    · rw [if_pos h1] at h
      exact Flag.noConfusion h
    · rw [if_neg h1] at h
      by_cases h2 : mostRecentUsgMin dfU pkg ≠ "" ∧ mostRecentRctMin dfR pkg ≠ "" ∧
          mk = mostRecentUsgMin dfU pkg ∧ mostRecentUsgMin dfU pkg ≠ mostRecentRctMin dfR pkg
      · exact ⟨h2.2.2.1, h2.1, h2.2.1, h2.2.2.2⟩
      · rw [if_neg h2] at h
        exact Flag.noConfusion h

theorem rctFlag_mismatched (dfR : List RctRecord) (dfU : List UsgRecord) (pkg mk : String)
    (h : rctFlag dfR dfU pkg mk = Flag.mismatched) :
    mk = mostRecentRctMin dfR pkg ∧ mostRecentUsgMin dfU pkg ≠ "" ∧
    mostRecentRctMin dfR pkg ≠ "" ∧ mostRecentUsgMin dfU pkg ≠ mostRecentRctMin dfR pkg := by
  unfold rctFlag at h
  by_cases h0 : mk = ""
  · rw [if_neg (by simp [h0])] at h
    exact Flag.noConfusion h
  · rw [if_pos h0] at h
    by_cases h1 : (intersectMinutes dfR dfU pkg).contains mk = true
    · rw [if_pos h1] at h
      exact Flag.noConfusion h
    · rw [if_neg h1] at h
      by_cases h2 : mostRecentUsgMin dfU pkg ≠ "" ∧ mostRecentRctMin dfR pkg ≠ "" ∧
          mk = mostRecentRctMin dfR pkg ∧ mostRecentUsgMin dfU pkg ≠ mostRecentRctMin dfR pkg
      · exact ⟨h2.2.2.1, h2.1, h2.2.1, h2.2.2.2⟩
      · rw [if_neg h2] at h
        exact Flag.noConfusion h

/-- Claim C2 as stated is false on the code: every record whose minute key
equals the source's most-recent minute is flagged, so a subject with two
usage rows in the same latest minute gets two `mismatched` rows. -/
theorem c2_counterexample :
    (annotatedUsg dfR1 dfU1 "app.two").countP (fun p => p.2 == Flag.mismatched) = 2 ∧
    ¬ (annotatedUsg dfR1 dfU1 "app.two").countP (fun p => p.2 == Flag.mismatched) ≤ 1 := by
  exact ⟨by decide, by decide⟩

/-- Claim C2 (amended): all `mismatched` usage rows of a subject sit at the
single source-A most-recent minute (so at most one minute, though possibly
several records, carries the flag), and only when both sources' most-recent
minutes are non-empty and differ; symmetric for task rows. -/
theorem c2_amended_mismatch_scope (dfR : List RctRecord) (dfU : List UsgRecord) (pkg : String) :
    (∀ p ∈ annotatedUsg dfR dfU pkg, p.2 = Flag.mismatched →
        minuteKeyFromUsg p.1.last_time_kst = mostRecentUsgMin dfU pkg ∧
        mostRecentUsgMin dfU pkg ≠ "" ∧ mostRecentRctMin dfR pkg ≠ "" ∧
        mostRecentUsgMin dfU pkg ≠ mostRecentRctMin dfR pkg) ∧
    (∀ p ∈ annotatedRct dfR dfU pkg, p.2 = Flag.mismatched →
        minuteKeyFromRct (p.1.last_time_moved_utc.getD "") = mostRecentRctMin dfR pkg ∧
        mostRecentUsgMin dfU pkg ≠ "" ∧ mostRecentRctMin dfR pkg ≠ "" ∧
        mostRecentUsgMin dfU pkg ≠ mostRecentRctMin dfR pkg) := by
  constructor
  · intro p hp hflag
    obtain ⟨u, _, rfl⟩ := List.mem_map.mp hp
    exact usgFlag_mismatched dfR dfU pkg _ hflag
  · intro p hp hflag
    obtain ⟨r, _, rfl⟩ := List.mem_map.mp hp
    exact rctFlag_mismatched dfR dfU pkg _ hflag

/-- Witness for the amended C2 at a concrete input. -/
theorem c2_amended_mismatch_scope_witness :
    minuteKeyFromUsg recU09b.last_time_kst = mostRecentUsgMin dfU1 "app.two" ∧
    mostRecentUsgMin dfU1 "app.two" ≠ "" ∧ mostRecentRctMin dfR1 "app.two" ≠ "" ∧
    mostRecentUsgMin dfU1 "app.two" ≠ mostRecentRctMin dfR1 "app.two" :=
  (c2_amended_mismatch_scope dfR1 dfU1 "app.two").1 (recU09b, Flag.mismatched)
    (by decide) (by decide)

/-! ### C4: unparsable timestamps -/

theorem empty_not_mem_rctMinSet (dfR : List RctRecord) (pkg : String) :
    "" ∉ rctMinSet dfR pkg := by
  intro h
  have := List.mem_filter.mp h
  simpa using this.2

theorem rctFlag_empty (dfR : List RctRecord) (dfU : List UsgRecord) (pkg : String) :
    rctFlag dfR dfU pkg "" = Flag.none := by
  unfold rctFlag
  rw [if_neg (by simp)]

theorem pyTake16_replace_ne_empty {s : String} (h : s ≠ "") :
    pyTake 16 (replaceChar 'T' ' ' s) ≠ "" := by
  cases s with
  | mk data =>
    cases data with
    | nil => exact absurd rfl h
    | cons c cs =>
      intro hc
      have h2 := congrArg String.data hc
      exact List.noConfusion h2

/-- Claim C4 is false on the code: a non-empty timestamp that
`fromisoformat` rejects does not get an empty minute key — the `except`
fallback returns the first 16 characters of the raw string — and that key
is bucketed like any other. -/
theorem c4_counterexample :
    pyFromIso2 "garbage" = Option.none ∧
    minuteKeyFromRct "garbage" = "garbage" ∧
    minuteKeyFromRct "garbage" ≠ "" ∧
    "garbage" ∈ rctMinSet dfR2 "app.bad" := by
  exact ⟨by decide, by decide, by decide, by decide⟩

/-- Claim C4 (amended): only an empty (or SQL-`NULL`) stored timestamp
yields an empty minute key; such a record joins no bucket set and is
retained in the annotated list with flag `none`.  A non-empty unparsable
timestamp instead gets the first 16 characters of the raw string (with `T`
turned into a space) as its key, which is non-empty and does enter the
subject's source-B bucket set. -/
theorem c4_amended_unparsable (dfR : List RctRecord) (dfU : List UsgRecord) (pkg : String)
    (r : RctRecord) (hr : r ∈ rctForPkg dfR pkg) :
    ("" ∉ rctMinSet dfR pkg) ∧
    (minuteKeyFromRct (r.last_time_moved_utc.getD "") = "" →
       (r, Flag.none) ∈ annotatedRct dfR dfU pkg) ∧
    (∀ s, r.last_time_moved_utc = some s → s ≠ "" → pyFromIso2 s = Option.none →
       minuteKeyFromRct s = pyTake 16 (replaceChar 'T' ' ' s) ∧
       minuteKeyFromRct s ∈ rctMinSet dfR pkg) := by
  refine ⟨empty_not_mem_rctMinSet dfR pkg, ?_, ?_⟩
  · intro hmk
    refine List.mem_map.mpr ⟨r, hr, ?_⟩
    rw [hmk, rctFlag_empty]
  · intro s hsome hne hparse
    have hkey : minuteKeyFromRct s = pyTake 16 (replaceChar 'T' ' ' s) := by
      unfold minuteKeyFromRct
      rw [if_neg hne, hparse]
    refine ⟨hkey, ?_⟩
    have hmem : s ∈ (rctForPkg dfR pkg).filterMap (fun r => r.last_time_moved_utc) :=
      List.mem_filterMap.mpr ⟨r, hr, hsome⟩
    refine List.mem_filter.mpr ⟨List.mem_map.mpr ⟨s, hmem, rfl⟩, ?_⟩
    rw [hkey]
    simpa using pyTake16_replace_ne_empty hne

/-- Witness for the amended C4: the record with timestamp "garbage". -/
theorem c4_amended_unparsable_witness :
    minuteKeyFromRct "garbage" = pyTake 16 (replaceChar 'T' ' ' "garbage") ∧
    minuteKeyFromRct "garbage" ∈ rctMinSet dfR2 "app.bad" :=
  (c4_amended_unparsable dfR2 [] "app.bad" recRBad (by decide)).2.2 "garbage"
    (by decide) (by decide) (by decide)

/-! ### C6: ranking -/

theorem rankLE_cases {idx : SnapIndex} {dfR : List RctRecord} {x y : String}
    (h : rankLE idx dfR x y = true) :
    snapshotScoreForPkg idx dfR y < snapshotScoreForPkg idx dfR x ∨
    (snapshotScoreForPkg idx dfR x = snapshotScoreForPkg idx dfR y ∧ pyLE x y = true) := by
  simp only [rankLE, Bool.or_eq_true, Bool.and_eq_true, decide_eq_true_eq] at h
  exact h

theorem rankLE_trans (idx : SnapIndex) (dfR : List RctRecord) :
    ∀ x y z, rankLE idx dfR x y = true → rankLE idx dfR y z = true →
      rankLE idx dfR x z = true := by
  intro x y z hxy hyz
  simp only [rankLE, Bool.or_eq_true, Bool.and_eq_true, decide_eq_true_eq] at hxy hyz ⊢
  rcases hxy with h1 | h1
  · rcases hyz with h2 | h2
    · exact Or.inl (lt_trans h2 h1)
    · exact Or.inl (h2.1 ▸ h1)
  · rcases hyz with h2 | h2
    · refine Or.inl ?_
      rw [h1.1]
      exact h2
    · exact Or.inr ⟨h1.1.trans h2.1, pyLE_trans h1.2 h2.2⟩

theorem rankLE_total (idx : SnapIndex) (dfR : List RctRecord) :
    ∀ x y, (rankLE idx dfR x y || rankLE idx dfR y x) = true := by
  intro x y
  simp only [rankLE, Bool.or_eq_true, Bool.and_eq_true, decide_eq_true_eq]
  rcases Nat.lt_trichotomy (snapshotScoreForPkg idx dfR x) (snapshotScoreForPkg idx dfR y)
    with h | h | h
  · exact Or.inr (Or.inl h)
  · have hLE := pyLE_total x y
    simp only [Bool.or_eq_true] at hLE
    rcases hLE with hL | hL
    · exact Or.inl (Or.inr ⟨h, hL⟩)
    · exact Or.inr (Or.inr ⟨h.symm, hL⟩)
  · exact Or.inl (Or.inl h)

theorem pyLt_of_pyLE_ne {a b : String} (h1 : pyLE a b = true) (h2 : a ≠ b) :
    pyLt a b = true := by
  unfold pyLE at h1
  rw [Bool.not_eq_true'] at h1
  rcases pyLtChars_trichot a.data b.data with he | hlt | hgt
  · refine absurd ?_ h2
    cases a with
    | mk d1 =>
      cases b with
      | mk d2 => exact congrArg String.mk he
  · exact hlt
  · rw [hgt] at h1
    exact Bool.noConfusion h1

/-- Claim C6: in the ranked subject list, a strictly higher coverage score
always places a subject earlier whatever the lexical order of the
identifiers, and subjects with equal scores appear in ascending
subject-id order. -/
theorem c6_ranking (idx : SnapIndex) (dfR : List RctRecord) (dfU : List UsgRecord)
    (i j : Nat) (hi : i < (rankedPkgs idx dfR dfU).length)
    (hj : j < (rankedPkgs idx dfR dfU).length) :
    (snapshotScoreForPkg idx dfR ((rankedPkgs idx dfR dfU).get ⟨j, hj⟩) <
       snapshotScoreForPkg idx dfR ((rankedPkgs idx dfR dfU).get ⟨i, hi⟩) → i < j) ∧
    (i < j →
       snapshotScoreForPkg idx dfR ((rankedPkgs idx dfR dfU).get ⟨i, hi⟩) =
         snapshotScoreForPkg idx dfR ((rankedPkgs idx dfR dfU).get ⟨j, hj⟩) →
       pyLt ((rankedPkgs idx dfR dfU).get ⟨i, hi⟩) ((rankedPkgs idx dfR dfU).get ⟨j, hj⟩)
         = true) := by
  have hdef : pySort (rankLE idx dfR) (pkgsAll dfR dfU) = rankedPkgs idx dfR dfU := rfl
  have hpair := pairwise_pySort (rankLE idx dfR) (rankLE_trans idx dfR) (rankLE_total idx dfR)
    (pkgsAll dfR dfU)
  have hget := List.pairwise_iff_getElem.mp hpair
  simp only [hdef] at hget
  have hnd : (rankedPkgs idx dfR dfU).Nodup := by
    have h1 := List.nodup_dedup (dfR.map pkg2R ++ dfU.map pkg2U)
    have h2 : (pkgsAll dfR dfU).Nodup := ((pySort_perm _ _).nodup_iff).mpr h1
    exact ((pySort_perm _ _).nodup_iff).mpr h2
  simp only [List.get_eq_getElem]
  constructor
  · intro hgt
    rcases Nat.lt_trichotomy i j with h | h | h
    · exact h
    · exfalso
      subst h
      exact lt_irrefl _ hgt
    · exfalso
      have hle := hget j i hj hi h
      rcases rankLE_cases hle with hc | hc
      · exact lt_asymm hgt hc
      · rw [hc.1] at hgt
        exact lt_irrefl _ hgt
  · intro hij heq
    have hle := hget i j hi hj hij
    rcases rankLE_cases hle with hc | hc
    · exfalso
      rw [heq] at hc
      exact lt_irrefl _ hc
    · have hne : (rankedPkgs idx dfR dfU)[i] ≠ (rankedPkgs idx dfR dfU)[j] := by
        intro hEq
        exact absurd ((hnd.getElem_inj_iff).mp hEq) (Nat.ne_of_lt hij)
      exact pyLt_of_pyLE_ne hc.2 hne

/-- Witness for C6 at a concrete input: two subjects with equal (zero)
scores appear in ascending id order. -/
theorem c6_ranking_witness :
    pyLt ((rankedPkgs [] dfR0 dfUW).get ⟨0, by decide⟩)
      ((rankedPkgs [] dfR0 dfUW).get ⟨1, by decide⟩) = true :=
  (c6_ranking [] dfR0 dfUW 0 1 (by decide) (by decide)).2 (by decide) (by decide)

/-! ### String lemmas for the matcher claims -/

theorem string_data_append (a b : String) : (a ++ b).data = a.data ++ b.data := rfl

theorem string_append_assoc (a b c : String) : a ++ b ++ c = a ++ (b ++ c) := by
  cases a with
  | mk la =>
    cases b with
    | mk lb =>
      cases c with
      | mk lc => exact congrArg String.mk (List.append_assoc la lb lc)

theorem toLower_of_isDigit {c : Char} (h : c.isDigit = true) : c.toLower = c := by
  simp only [Char.isDigit, decide_eq_true_eq, Bool.and_eq_true] at h
  unfold Char.toLower
  rw [if_neg]
  intro hcontra
  obtain ⟨h1, _⟩ := hcontra
  have h3 : c.val ≤ 57 := h.2
  rw [UInt32.le_def, BitVec.le_def] at h3
  unfold Char.toNat UInt32.toNat at h1
  simp only [show (UInt32.toBitVec 57).toNat = 57 from rfl] at h3
  omega

theorem pyLower_append (a b : String) : pyLower (a ++ b) = pyLower a ++ pyLower b := by
  unfold pyLower
  rw [string_data_append, List.map_append]
  rfl

theorem pyLower_digitsOf (t : String) : pyLower (digitsOf t) = digitsOf t := by
  unfold pyLower digitsOf
  congr 1
  have hfix : ∀ x ∈ t.data.filter Char.isDigit, x.toLower = x := by
    intro x hx
    exact toLower_of_isDigit (List.of_mem_filter hx)
  calc (t.data.filter Char.isDigit).map Char.toLower
      = (t.data.filter Char.isDigit).map id := List.map_congr_left hfix
    _ = t.data.filter Char.isDigit := List.map_id _

theorem pyLower_eq_empty_iff (s : String) : pyLower s = "" ↔ s = "" := by
  cases s with
  | mk l =>
    cases l with
    | nil => simp [pyLower]
    | cons c cs =>
      constructor
      · intro h
        exact List.noConfusion (congrArg String.data h)
      · intro h
        exact List.noConfusion (congrArg String.data h)

theorem not_digit_of_ws {c : Char} (h : c.isWhitespace = true) : c.isDigit = false := by
  simp only [Char.isWhitespace, Bool.or_eq_true, decide_eq_true_eq] at h
  rcases h with ((h | h) | h) | h <;> (subst h; rfl)

theorem filter_digit_dropWhile_ws (l : List Char) :
    (l.dropWhile Char.isWhitespace).filter Char.isDigit = l.filter Char.isDigit := by
  have hsplit := List.takeWhile_append_dropWhile Char.isWhitespace l
  conv_rhs => rw [← hsplit]
  rw [List.filter_append]
  have hnil : (l.takeWhile Char.isWhitespace).filter Char.isDigit = [] := by
    rw [List.filter_eq_nil_iff]
    intro a ha
    simp [not_digit_of_ws (List.mem_takeWhile_imp ha)]
  rw [hnil, List.nil_append]

theorem displayDigits_eq (r : RctRecord) : displayDigits r = digitsOf r.task_id := by
  unfold displayDigits digitsOf pyStrip
  congr 1
  rw [List.filter_reverse, filter_digit_dropWhile_ws, List.filter_reverse,
    List.reverse_reverse, filter_digit_dropWhile_ws]

/-! ### C9: the two matchers agree on records with a non-null stored name -/

theorem snapshotCounted_eq_any (idx : SnapIndex) (r : RctRecord) :
    snapshotCounted idx r = (scoreCandidates r).any (fun cand => candHit idx cand) := by
  unfold snapshotCounted
  by_cases hsf : (scoreSf r ≠ "" && snapIndexHasKey idx (scoreSf r)) = true
  · rw [if_pos hsf]
    rw [Bool.and_eq_true] at hsf
    obtain ⟨h1, h2⟩ := hsf
    have hne : scoreSf r ≠ "" := of_decide_eq_true h1
    symm
    rw [List.any_eq_true]
    refine ⟨scoreSf r, ?_, ?_⟩
    · unfold scoreCandidates
      rw [if_pos hne]
      exact List.mem_append_left _ (List.mem_cons_self _ _)
    · unfold candHit
      rw [h2]
      rfl
  · rw [if_neg hsf]

theorem pyLower_jpg : pyLower ".jpg" = ".jpg" := by decide

theorem pyLower_png : pyLower ".png" = ".png" := by decide

theorem pyLower_webp : pyLower ".webp" = ".webp" := by decide

theorem pyLower_jpeg : pyLower ".jpeg" = ".jpeg" := by decide

theorem pyLower_reduced : pyLower "_reduced" = "_reduced" := by decide

theorem scoreCandidates_eq_map_lower {r : RctRecord} {s : String}
    (h : r.snapshot_file = some s) :
    scoreCandidates r = (displayCandidates r).map pyLower := by
  unfold scoreCandidates displayCandidates
  rw [List.map_append]
  congr 1
  · have hsf : scoreSf r = pyLower (displayName r) := by
      simp [scoreSf, displayName, strOrEmpty, strOfOptPy, h]
    by_cases hn : displayName r = ""
    · rw [if_neg, if_neg (by simpa using hn)]
      · simp
      · rw [hsf, hn]
        simpa using (pyLower_eq_empty_iff "").mpr rfl
    · rw [hsf, if_pos ?_, if_pos hn]
      · simp
      · intro hcontra
        exact hn ((pyLower_eq_empty_iff _).mp hcontra)
  · rw [displayDigits_eq]
    by_cases hd : digitsOf r.task_id = ""
    · simp [hd]
    · simp only [if_pos hd]
      simp only [exts, List.map_cons, List.map_nil, List.map_append, List.cons_append,
        List.nil_append]
      simp [pyLower_append, pyLower_digitsOf, pyLower_jpg, pyLower_png, pyLower_webp,
        pyLower_jpeg, pyLower_reduced]

theorem resolveCandidate_isSome_iff (idx : SnapIndex) (cand : String) :
    (resolveCandidate idx cand).isSome = true ↔ candHit idx (pyLower cand) = true := by
  unfold resolveCandidate candHit snapIndexGet snapIndexHasKey
  cases hf : idx.find? (fun p => p.1 == pyLower cand) with
  | some v =>
    have hany : idx.any (fun p => p.1 == pyLower cand) = true := by
      rw [List.any_eq_true]
      have hs : (idx.find? (fun p => p.1 == pyLower cand)).isSome := by
        rw [hf]; rfl
      obtain ⟨x, hx, hpx⟩ := List.find?_isSome.mp hs
      exact ⟨x, hx, hpx⟩
    simp [hf, hany]
  | none =>
    have hnone : ∀ x ∈ idx, ¬ (x.1 == pyLower cand) = true := List.find?_eq_none.mp hf
    have hany : idx.any (fun p => p.1 == pyLower cand) = false := by
      rw [Bool.eq_false_iff]
      intro hc
      obtain ⟨x, hx, hpx⟩ := List.any_eq_true.mp hc
      exact hnone x hx hpx
    cases hg : idx.find? (fun p => pyEndsWith p.1 (pyLower cand)) with
    | some w =>
      have hany2 : idx.any (fun p => pyEndsWith p.1 (pyLower cand)) = true := by
        rw [List.any_eq_true]
        have hs : (idx.find? (fun p => pyEndsWith p.1 (pyLower cand))).isSome := by
          rw [hg]; rfl
        obtain ⟨x, hx, hpx⟩ := List.find?_isSome.mp hs
        exact ⟨x, hx, hpx⟩
      simp [hf, hg, hany2]
    | none =>
      have hnone2 : ∀ x ∈ idx, ¬ (pyEndsWith x.1 (pyLower cand)) = true :=
        List.find?_eq_none.mp hg
      have hany2 : idx.any (fun p => pyEndsWith p.1 (pyLower cand)) = false := by
        rw [Bool.eq_false_iff]
        intro hc
        obtain ⟨x, hx, hpx⟩ := List.any_eq_true.mp hc
        exact hnone2 x hx hpx
      simp [hf, hg, hany, hany2]

/-- Claim C9 as stated is false on the code: on a record whose stored name
is SQL `NULL`, the boolean scorer coerces the name to `""` while the
path-returning matcher stringifies it to "None", which can resolve. -/
theorem c9_counterexample :
    snapshotCounted idxN recRN = false ∧ (findSnapshot idxN recRN).isSome = true := by
  exact ⟨by decide, by decide⟩

/-- Claim C9 (amended): on every record whose stored artifact name is
non-null, the scoring implementation counts the record exactly when the
image-collection implementation resolves some path for it, against the
same index. -/
theorem c9_amended_matchers_agree (idx : SnapIndex) (r : RctRecord) (s : String)
    (h : r.snapshot_file = some s) :
    snapshotCounted idx r = true ↔ (findSnapshot idx r).isSome = true := by
  rw [snapshotCounted_eq_any, scoreCandidates_eq_map_lower h]
  unfold findSnapshot
  rw [List.any_map]
  constructor
  · intro hany
    obtain ⟨x, hx, hhit⟩ := List.any_eq_true.mp hany
    rw [List.findSome?_isSome_iff]
    exact ⟨x, hx, (resolveCandidate_isSome_iff idx x).mpr hhit⟩
  · intro hsome
    obtain ⟨x, hx, hhit⟩ := List.findSome?_isSome_iff.mp hsome
    rw [List.any_eq_true]
    exact ⟨x, hx, (resolveCandidate_isSome_iff idx x).mp hhit⟩

/-- Witness for the amended C9 at a concrete input: a stored name differing
only in case from an indexed file is counted and resolved alike. -/
theorem c9_amended_matchers_agree_witness :
    snapshotCounted idxW recRW = true ↔ (findSnapshot idxW recRW).isSome = true :=
  c9_amended_matchers_agree idxW recRW "42.JPG" (by decide)

/-! ### C5: the display matcher against the claim's wording -/

theorem find?_eq_head_filter (p : α → Bool) (l : List α) :
    l.find? p = (l.filter p).head? := by
  induction l with
  | nil => rfl
  | cons a as ih =>
    by_cases h : p a = true
    · rw [List.find?_cons_of_pos as h, List.filter_cons_of_pos h, List.head?_cons]
    · rw [List.find?_cons_of_neg as (by simpa using h), List.filter_cons_of_neg (by simpa using h), ih]

theorem findSome?_ext {f g : α → Option β} (h : ∀ a, f a = g a) (l : List α) :
    l.findSome? f = l.findSome? g := by
  induction l with
  | nil => rfl
  | cons a as ih =>
    rw [List.findSome?_cons, List.findSome?_cons, h a, ih]

theorem resolveCandidate_eq_spec (idx : SnapIndex) (cand : String) :
    resolveCandidate idx cand = specResolveC5 idx cand := by
  unfold resolveCandidate specResolveC5 snapIndexGet snapIndexHasKey
  cases hf : idx.find? (fun p => p.1 == pyLower cand) with
  | some v =>
    have hany : idx.any (fun p => p.1 == pyLower cand) = true := by
      rw [List.any_eq_true]
      have hs : (idx.find? (fun p => p.1 == pyLower cand)).isSome := by
        rw [hf]; rfl
      exact List.find?_isSome.mp hs
    rw [if_pos hany]
    rfl
  | none =>
    have hnone : ∀ x ∈ idx, ¬ (x.1 == pyLower cand) = true := List.find?_eq_none.mp hf
    have hany : idx.any (fun p => p.1 == pyLower cand) = false := by
      rw [Bool.eq_false_iff]
      intro hc
      obtain ⟨x, hx, hpx⟩ := List.any_eq_true.mp hc
      exact hnone x hx hpx
    rw [if_neg (by simp [hany]), find?_eq_head_filter]
    rfl

theorem displayCandidates_eq_specA (r : RctRecord) :
    displayCandidates r = specCandidatesC5A r := by
  unfold displayCandidates specCandidatesC5A displayName
  congr 1
  by_cases hd : displayDigits r = ""
  · simp [hd]
  · simp only [if_pos (by simpa using hd : displayDigits r ≠ "")]
    simp only [exts, List.map_cons, List.map_nil, List.cons_append, List.nil_append]
    rw [string_append_assoc _ "_reduced" ".jpg", string_append_assoc _ "_reduced" ".png",
      string_append_assoc _ "_reduced" ".webp", string_append_assoc _ "_reduced" ".jpeg"]
    rfl

/-- Claim C5 as stated is false on the code: a record with no stored
artifact name and no digits in its sequence id should generate no
candidates, but the code stringifies the absent name to "None" and can
resolve a path from it. -/
theorem c5_counterexample :
    findSnapshot idxN recRN = some "snapshots/none" ∧
    specFindSnapshotC5 idxN recRN = Option.none := by
  exact ⟨by decide, by decide⟩

/-- Claim C5 (amended): the matcher behaves exactly as the claim describes
— candidates in the stated order, each resolved by exact case-insensitive
lookup first and then first suffix match, first success winning — except
that the stored-name candidate is the stringified stored name, so an
absent (`None`) name contributes the literal candidate "None". -/
theorem c5_amended_matcher_spec (idx : SnapIndex) (r : RctRecord) :
    findSnapshot idx r = specFindSnapshotC5A idx r := by
  unfold findSnapshot specFindSnapshotC5A
  rw [displayCandidates_eq_specA]
  exact findSome?_ext (fun cand => resolveCandidate_eq_spec idx cand) _

/-! ### C7: subject-id resolution against the claim's wording -/

theorem searchBrace_cons (c : Char) (rest : List Char) :
    searchBrace (c :: rest) =
      match braceAt (c :: rest) 0 with
      | some g => some g
      | Option.none => searchBrace rest := by
  show (if c = '{' then
          if rest.takeWhile isPkgChar ≠ [] ∧
              (rest.drop (rest.takeWhile isPkgChar).length).head? = some '/'
          then some (rest.takeWhile isPkgChar) else searchBrace rest
        else searchBrace rest)
      = match (if c = '{' then
          if rest.takeWhile isPkgChar ≠ [] ∧
              (rest.drop (rest.takeWhile isPkgChar).length).head? = some '/'
          then some (rest.takeWhile isPkgChar) else Option.none
        else Option.none) with
        | some g => some g
        | Option.none => searchBrace rest
  by_cases hc : c = '{'
  · rw [if_pos hc, if_pos hc]
    by_cases hcond : rest.takeWhile isPkgChar ≠ [] ∧
        (rest.drop (rest.takeWhile isPkgChar).length).head? = some '/'
    · rw [if_pos hcond, if_pos hcond]
    · rw [if_neg hcond, if_neg hcond]
  · rw [if_neg hc, if_neg hc]

theorem searchBrace_eq_spec (cs : List Char) : searchBrace cs = specBraceSearch cs := by
  induction cs with
  | nil => rfl
  | cons c rest ih =>
    have htail : (List.range rest.length).findSome? (braceAt (c :: rest) ∘ Nat.succ)
        = specBraceSearch rest := by
      have hcomp : (braceAt (c :: rest)) ∘ Nat.succ = braceAt rest := by
        funext i
        show braceAt (c :: rest) (i + 1) = braceAt rest i
        unfold braceAt
        rw [List.drop_succ_cons]
      rw [hcomp]
      rfl
    rw [searchBrace_cons, ih]
    show _ = (List.range (c :: rest).length).findSome? (braceAt (c :: rest))
    rw [List.length_cons, List.range_succ_eq_map, List.findSome?_cons, List.findSome?_map,
      htail]
    cases hb : braceAt (c :: rest) 0 with
    | some g => rfl
    | none => rfl

theorem searchDot_cons (c : Char) (rest : List Char) :
    searchDot (c :: rest) =
      match dotAt (c :: rest) 0 with
      | some g => some g
      | Option.none => searchDot rest := by
  show (match lastDotIdx ((c :: rest).takeWhile isPkgChar) with
        | some j =>
          if 1 ≤ j then some (((c :: rest).takeWhile isPkgChar).take j) else searchDot rest
        | Option.none => searchDot rest)
      = match (match lastDotIdx ((c :: rest).takeWhile isPkgChar) with
          | some j =>
            if 1 ≤ j then some (((c :: rest).takeWhile isPkgChar).take j) else Option.none
          | Option.none => Option.none) with
        | some g => some g
        | Option.none => searchDot rest
  cases hl : lastDotIdx ((c :: rest).takeWhile isPkgChar) with
  | some j =>
    by_cases hj : 1 ≤ j
    · simp only [if_pos hj]
    · simp only [if_neg hj]
  | none => rfl

theorem searchDot_eq_spec (cs : List Char) : searchDot cs = specDotSearch cs := by
  induction cs with
  | nil => rfl
  | cons c rest ih =>
    have htail : (List.range rest.length).findSome? (dotAt (c :: rest) ∘ Nat.succ)
        = specDotSearch rest := by
      have hcomp : (dotAt (c :: rest)) ∘ Nat.succ = dotAt rest := by
        funext i
        show dotAt (c :: rest) (i + 1) = dotAt rest i
        unfold dotAt
        rw [List.drop_succ_cons]
      rw [hcomp]
      rfl
    rw [searchDot_cons, ih]
    show _ = (List.range (c :: rest).length).findSome? (dotAt (c :: rest))
    rw [List.length_cons, List.range_succ_eq_map, List.findSome?_cons, List.findSome?_map,
      htail]
    cases hb : dotAt (c :: rest) 0 with
    | some g => rfl
    | none => rfl

/-- Claim C7 as stated is false on the code: on "a.b.c!" no bracket,
leading token or bare-identifier rule applies, and the fallback regex
greedily matches the identifier run up to its last dot, yielding "a.b" —
not "a", the substring before the first dot. -/
theorem c7_counterexample :
    extractPackage "a.b.c!" = some "a.b" ∧
    specExtractLitC7 "a.b.c!" = some "a" ∧
    ¬ extractPackage "a.b.c!" = specExtractLitC7 "a.b.c!" := by
  exact ⟨by decide, by decide, by decide⟩

/-- Claim C7 (amended): the priority order is (a) bracketed component,
(b) leading token terminated by `/` or space, (c) bare identifier, then
(d) — not the substring before the first dot, but the first
identifier-character run containing a dot past its start, truncated at its
last dot; a record whose descriptor resolves to nothing is mapped to the
sentinel subject id "android" rather than dropped. -/
theorem c7_amended_extract (r : RctRecord) (h : r.real_activity ≠ "") :
    extractPackage r.real_activity = specExtractAmendedC7 r.real_activity ∧
    (extractPackage r.real_activity = Option.none → pkg2R r = "android") := by
  constructor
  · unfold extractPackage specExtractAmendedC7
    rw [if_neg h, if_neg h]
    simp only [searchBrace_eq_spec, searchDot_eq_spec]
  · intro hnone
    unfold pkg2R
    rw [hnone]
    rfl

/-- Witness for the amended C7 at a concrete input. -/
theorem c7_amended_extract_witness :
    extractPackage recR05.real_activity = specExtractAmendedC7 recR05.real_activity ∧
    (extractPackage recR05.real_activity = Option.none → pkg2R recR05 = "android") :=
  c7_amended_extract recR05 (by decide)
